import Mathlib

/-!
Verification of the draft turn engine in `src/main.py` (class `DraftManager`,
`RosterManager.get_top_available`, and the `on_reaction_add` handler).

Modelling conventions:
- Python `str` is `String`; `str.lower()` is `strLower`, per-character ASCII
  lower-casing (it agrees with Python on the ASCII data the engine handles).
- The Python `set` field `drafted_players` is represented as a duplicate-free
  `List String` with membership semantics (`setAdd` models `set.add`,
  `List.erase` models `set.discard`); set iteration order is unspecified in
  Python, so only membership is meaningful.
- Python `dict` values (`teams`, `POSITION_EMOJIS`) are association lists with
  first-match lookup (`dictGet`) and update-in-place-or-append (`dictSet`),
  matching dict assignment semantics.
- `current_pick` is a `Nat`, following the data model (a non-negative integer);
  every operation of the engine keeps it non-negative.
- Fallible code is `Option`-valued: `none` models an uncaught Python exception
  (`KeyError` on a missing team entry).  Integer division by zero
  (`get_current_round` with an empty base order would raise
  `ZeroDivisionError` in Python) only arises in states the engine never
  produces; Lean total division returns 0 there.
- Discord I/O (sending messages, reactions, embeds, and the JSON file
  round-trip performed by `save_data`/`load_data`) is out of scope; `save_data`
  produces the structured record that is written, `load_data` consumes it.
-/

/-- Python `str.lower()`, modelled as per-character ASCII lower-casing (the
same character map as `String.toLower`, written by structural recursion so
that concrete states evaluate). -/
def strLower (s : String) : String :=
  ⟨s.data.map Char.toLower⟩

/-- Identity key of a player: the lower-cased "name|team" string used for the
exclusion set, as built at `main.py` lines 64, 137, 145 and 185. -/
def playerKey (name team : String) : String :=
  strLower name ++ "|" ++ strLower team

/-- Roster entry of one team: the `pick_data` dict built in `add_pick`
(`main.py` lines 151 to 157), without the `user_id` field. -/
structure PickData where
  player_name : String
  player_team : String
  position : String
  pick_number : Nat
  round : Nat
deriving DecidableEq, Repr

/-- Element of `all_picks`: `pick_data` together with `user_id`
(`main.py` lines 160 to 163). -/
structure Pick where
  user_id : String
  player_name : String
  player_team : String
  position : String
  pick_number : Nat
  round : Nat
deriving DecidableEq, Repr

/-- Identity key of a recorded pick, as recomputed by `undo_last_pick`
(`main.py` line 185). -/
def pickKey (p : Pick) : String :=
  playerKey p.player_name p.player_team

/-- One entry of the `teams` dict: the roster list and the team name. -/
structure TeamData where
  team_name : String
  players : List PickData
deriving DecidableEq, Repr

/-- Catalog entry used by `RosterManager.get_top_available`; only the fields
the engine reads (`name`, `team`, `position`) are modelled. -/
structure Player where
  name : String
  team : String
  position : String
deriving DecidableEq, Repr

/-- First-match lookup in an association list, modelling Python dict access. -/
def dictGet {β : Type} : List (String × β) → String → Option β
  | [], _ => none
  | (k', v') :: rest, k => if k' = k then some v' else dictGet rest k

/-- Update-or-append in an association list, modelling Python dict
assignment `d[k] = v` (an existing key keeps its position). -/
def dictSet {β : Type} : List (String × β) → String → β → List (String × β)
  | [], k, v => [(k, v)]
  | (k', v') :: rest, k, v =>
      if k' = k then (k, v) :: rest else (k', v') :: dictSet rest k v

/-- Membership-preserving insertion, modelling Python `set.add`. -/
def setAdd (l : List String) (k : String) : List String :=
  if k ∈ l then l else l ++ [k]

/-- Rebuild a set from a list of elements, modelling Python `set(iterable)`. -/
def setOfList (l : List String) : List String :=
  l.foldl setAdd []

/-- State of the `DraftManager` singleton (`main.py` lines 73 to 84),
field names as in the source. -/
structure DraftState where
  base_draft_order : List String
  draft_order : List String
  current_pick : Nat
  num_rounds : Nat
  teams : List (String × TeamData)
  all_picks : List Pick
  is_active : Bool
  channel_id : Option Nat
  drafted_players : List String
  current_draft_message : Option Nat
  current_position : String
deriving DecidableEq, Repr

/-- Fresh `DraftManager.__init__` state before any data file is loaded
(`main.py` lines 73 to 84). -/
def initState : DraftState :=
  { base_draft_order := []
    draft_order := []
    current_pick := 0
    num_rounds := 0
    teams := []
    all_picks := []
    is_active := false
    channel_id := none
    drafted_players := []
    current_draft_message := none
    current_position := "QB" }

/-- Snake order construction, `create_snake_order` (`main.py` lines 113
to 121): even rounds extend with the base order, odd rounds with its
reverse. -/
def create_snake_order (base : List String) (rounds : Nat) : List String :=
  (List.range rounds).foldl
    (fun order round_num =>
      order ++ (if round_num % 2 = 0 then base else base.reverse)) []

/-- Team initialization performed by `start_draft` (`main.py` lines 108
to 109): a dict comprehension over the enumerated draft order. -/
def buildTeamsAux (i : Nat) : List String → List (String × TeamData) → List (String × TeamData)
  | [], d => d
  | uid :: rest, d =>
      buildTeamsAux (i + 1) rest
        (dictSet d uid { team_name := "Team " ++ toString (i + 1), players := [] })

/-- Teams dict created by `start_draft` (`main.py` lines 108 to 109). -/
def buildTeams (order : List String) : List (String × TeamData) :=
  buildTeamsAux 0 order []

/-- `start_draft` (`main.py` lines 94 to 111); the trailing `save_data`
call is a durability write with no in-memory effect. -/
def start_draft (s : DraftState) (order : List String) (rounds : Nat)
    (channel : Option Nat) : DraftState :=
  { s with
    base_draft_order := order
    num_rounds := rounds
    channel_id := channel
    is_active := true
    current_pick := 0
    all_picks := []
    drafted_players := []
    current_position := "QB"
    draft_order := create_snake_order order rounds
    teams := buildTeams order }

/-- `end_draft` (`main.py` lines 87 to 92): clears the active flag and
channel and message handles, preserving all picks. -/
def end_draft (s : DraftState) : DraftState :=
  { s with is_active := false, channel_id := none, current_draft_message := none }

/-- `get_current_user` (`main.py` lines 123 to 126). -/
def get_current_user (s : DraftState) : Option String :=
  if s.current_pick < s.draft_order.length then
    s.draft_order.get? s.current_pick
  else none

/-- `get_current_round` (`main.py` lines 133 to 134); Python raises
`ZeroDivisionError` on an empty base order, Lean division returns 0. -/
def get_current_round (s : DraftState) : Nat :=
  s.current_pick / s.base_draft_order.length + 1

/-- `add_pick` (`main.py` lines 140 to 169).  Returns
`some ((user, error), state)`; `none` models an uncaught Python exception:
the `KeyError` raised when the picking user has no `teams` entry (observable
state is then unchanged, since the team lookup precedes every mutation), or
the list-index branch that the length guard makes unreachable.  The trailing
`save_data` call is a durability write with no in-memory effect. -/
def add_pick (s : DraftState) (player_name player_team position : String) :
    Option ((Option String × Option String) × DraftState) :=
  if s.draft_order.length ≤ s.current_pick then
    some ((none, some "Draft is complete!"), s)
  else
    let player_key := playerKey player_name player_team
    if player_key ∈ s.drafted_players then
      some ((none, some (player_name ++ " (" ++ player_team ++ ") has already been drafted!")), s)
    else
      match s.draft_order.get? s.current_pick with
      | none => none
      | some user_id =>
        match dictGet s.teams user_id with
        | none => none
        | some team =>
          let pd : PickData :=
            { player_name := player_name
              player_team := player_team
              position := position
              pick_number := s.all_picks.length + 1
              round := get_current_round s }
          some ((some user_id, none),
            { s with
              teams := dictSet s.teams user_id { team with players := team.players ++ [pd] }
              all_picks := s.all_picks ++
                [{ user_id := user_id
                   player_name := player_name
                   player_team := player_team
                   position := position
                   pick_number := pd.pick_number
                   round := pd.round }]
              drafted_players := setAdd s.drafted_players player_key
              current_pick := s.current_pick + 1 })

/-- `undo_last_pick` (`main.py` lines 171 to 190).  `none` models the
`KeyError` raised when the last pick has no `teams` entry.  The trailing
`save_data` call is a durability write with no in-memory effect. -/
def undo_last_pick (s : DraftState) : Option (Bool × DraftState) :=
  match s.all_picks.getLast? with
  | none => some (false, s)
  | some last_pick =>
    match dictGet s.teams last_pick.user_id with
    | none => none
    | some team =>
      some (true,
        { s with
          all_picks := s.all_picks.dropLast
          teams := dictSet s.teams last_pick.user_id
            { team with
              players := team.players.filter
                (fun p => p.pick_number != last_pick.pick_number) }
          drafted_players := s.drafted_players.erase (pickKey last_pick)
          current_pick := s.current_pick - 1 })

/-- Structured record written by `save_data` (`main.py` lines 192 to 205);
the JSON encoding itself is performed by the excluded persistence
collaborator. -/
structure SavedData where
  base_draft_order : List String
  draft_order : List String
  current_pick : Nat
  num_rounds : Nat
  teams : List (String × TeamData)
  all_picks : List Pick
  is_active : Bool
  channel_id : Option Nat
  drafted_players : List String
deriving DecidableEq, Repr

/-- `save_data` (`main.py` lines 192 to 205): `drafted_players` is written
out as `list(self.drafted_players)`. -/
def save_data (s : DraftState) : SavedData :=
  { base_draft_order := s.base_draft_order
    draft_order := s.draft_order
    current_pick := s.current_pick
    num_rounds := s.num_rounds
    teams := s.teams
    all_picks := s.all_picks
    is_active := s.is_active
    channel_id := s.channel_id
    drafted_players := s.drafted_players }

/-- `load_data` (`main.py` lines 207 to 222): assigns every stored field on
the current manager (`set(...)` rebuilds `drafted_players`); fields not in
the file (`current_draft_message`, `current_position`) keep their values. -/
def load_data (d : SavedData) (s : DraftState) : DraftState :=
  { s with
    base_draft_order := d.base_draft_order
    draft_order := d.draft_order
    current_pick := d.current_pick
    num_rounds := d.num_rounds
    teams := d.teams
    all_picks := d.all_picks
    is_active := d.is_active
    channel_id := d.channel_id
    drafted_players := setOfList d.drafted_players }

/-- `RosterManager.get_top_available` (`main.py` lines 60 to 68): the first
`limit` catalog entries of the position whose key is not excluded. -/
def get_top_available (players : List Player) (drafted_players : List String)
    (limit : Nat) : List Player :=
  (players.filter (fun pl => playerKey pl.name pl.team ∉ drafted_players)).take limit

/-- Number emojis used for selection (`main.py` line 21). -/
def NUMBER_EMOJIS : List String :=
  ["1️⃣", "2️⃣", "3️⃣", "4️⃣", "5️⃣", "6️⃣", "7️⃣", "8️⃣", "9️⃣", "🔟"]

/-- Position-switch emojis (`main.py` lines 24 to 29). -/
def POSITION_EMOJIS : List (String × String) :=
  [("🏈", "QB"), ("🏃", "RB"), ("🙌", "WR"), ("🤲", "TE")]

/-- Incoming reaction event: the reacting user, whether it came from a bot,
the id of the message reacted to, and the emoji. -/
structure ReactionEvent where
  userId : String
  isBot : Bool
  messageId : Nat
  emoji : String
deriving DecidableEq, Repr

/-- State transition of the `on_reaction_add` handler (`main.py` lines 425
to 540).  `catalog` is `roster_manager.players_by_position` (with a missing
position defaulting to the empty list); `freshMessageId` is the id Discord
assigns to the next draft board message.  Channel sends, reaction edits and
embeds are I/O with no engine state effect and are not modelled; a `none`
result of `add_pick` (uncaught exception) aborts the handler with the state
unchanged. -/
def on_reaction_add (catalog : String → List Player) (ev : ReactionEvent)
    (freshMessageId : Nat) (s : DraftState) : DraftState :=
  if ev.isBot then s
  else if s.is_active = false then s
  else if s.current_draft_message ≠ some ev.messageId then s
  else
    match get_current_user s with
    | none => s
    | some current_user_id =>
      if ev.userId ≠ current_user_id then s
      else
        match dictGet POSITION_EMOJIS ev.emoji with
        | some pos => { s with current_position := pos }
        | none =>
          if ev.emoji ∈ NUMBER_EMOJIS then
            let player_index := NUMBER_EMOJIS.indexOf ev.emoji
            let available_players :=
              get_top_available (catalog s.current_position) s.drafted_players 10
            if h : player_index < available_players.length then
              let selected := available_players.get ⟨player_index, h⟩
              match add_pick s selected.name selected.team selected.position with
              | none => s
              | some ((_, some _), _) => s
              | some ((_, none), s1) =>
                if s1.draft_order.length ≤ s1.current_pick then
                  { s1 with is_active := false }
                else
                  { s1 with current_position := "QB",
                            current_draft_message := some freshMessageId }
            else s
          else s

/-- Catalog with no players at any position (used to instantiate the
handler on concrete states). -/
def emptyCatalog : String → List Player := fun _ => []

/-- Engine operations a session can perform on the draft state. -/
inductive DraftOp where
  | start (order : List String) (rounds : Nat) (channel : Option Nat)
  | commit (player_name player_team position : String)
  | undo
deriving DecidableEq, Repr

/-- Apply one engine operation; an uncaught exception (`none` result)
leaves the observable state unchanged. -/
def applyOp (s : DraftState) : DraftOp → DraftState
  | .start order rounds channel => start_draft s order rounds channel
  | .commit n t p =>
    match add_pick s n t p with
    | some (_, s') => s'
    | none => s
  | .undo =>
    match undo_last_pick s with
    | some (_, s') => s'
    | none => s

/-- Apply a sequence of engine operations in order. -/
def applyOps (ops : List DraftOp) (s : DraftState) : DraftState :=
  ops.foldl applyOp s

/-- Apply a sequence of commits `(name, team, position)` in order. -/
def commitMany (s : DraftState) (l : List (String × String × String)) : DraftState :=
  l.foldl (fun st x => applyOp st (.commit x.1 x.2.1 x.2.2)) s

/-- Roster list of one participant (empty when the participant has no
`teams` entry). -/
def rosterPlayers (s : DraftState) (u : String) : List PickData :=
  match dictGet s.teams u with
  | some team => team.players
  | none => []

/-- State reached by starting a two-participant one-round draft and then
ending it: the draft is inactive but not complete. -/
def exInactive : DraftState :=
  end_draft (start_draft initState ["A", "B"] 1 none)

/-- Freshly started two-participant one-round draft. -/
def scenB0 : DraftState :=
  start_draft initState ["A", "B"] 1 none

/-- Scenario B state: two participants, one round, first pick committed. -/
def scenB1 : DraftState :=
  applyOps [.start ["A", "B"] 1 none, .commit "Tom Brady" "BUC" "QB"] initState

/-- Completed draft holding the key of "Tom Brady"/"BUC": both turns of a
two-participant one-round draft used. -/
def scenComplete : DraftState :=
  applyOps [.start ["A", "B"] 1 none, .commit "Tom Brady" "BUC" "QB",
    .commit "Patrick Mahomes" "KC" "QB"] initState

/-- Invariant maintained by every engine operation: the exclusion set holds
exactly the identity keys of `all_picks` (without repetition), and every
participant of the turn order, as well as of every recorded pick, has a
`teams` entry. -/
structure DraftInv (s : DraftState) : Prop where
  mem_iff : ∀ k, k ∈ s.drafted_players ↔ k ∈ s.all_picks.map pickKey
  nodup_keys : (s.all_picks.map pickKey).Nodup
  nodup_drafted : s.drafted_players.Nodup
  teams_order : ∀ u ∈ s.draft_order, (dictGet s.teams u).isSome
  teams_picks : ∀ q ∈ s.all_picks, (dictGet s.teams q.user_id).isSome

lemma dictGet_dictSet_self {β : Type} (d : List (String × β)) (k : String) (v : β) :
    dictGet (dictSet d k v) k = some v := by
  induction d with
  | nil => simp [dictSet, dictGet]
  | cons kv rest ih =>
    obtain ⟨k', v'⟩ := kv
    by_cases h : k' = k
    · simp [dictSet, h, dictGet]
    · simp [dictSet, h, dictGet, ih]

lemma dictGet_dictSet_of_ne {β : Type} (d : List (String × β)) {k u : String}
    (v : β) (h : u ≠ k) : dictGet (dictSet d k v) u = dictGet d u := by
  have hku : ¬ (k = u) := fun hh => h hh.symm
  induction d with
  | nil => simp [dictSet, dictGet, hku]
  | cons kv rest ih =>
    obtain ⟨k', v'⟩ := kv
    by_cases hk : k' = k
    · subst hk
      simp [dictSet, dictGet, hku]
    · by_cases hu : k' = u
      · simp [dictSet, hk, dictGet, hu, h]
      · simp [dictSet, hk, dictGet, hu, ih]

lemma isSome_dictGet_dictSet {β : Type} (d : List (String × β)) (k u : String)
    (v : β) (h : (dictGet d u).isSome) : (dictGet (dictSet d k v) u).isSome := by
  by_cases hu : u = k
  · subst hu
    rw [dictGet_dictSet_self]
    rfl
  · rw [dictGet_dictSet_of_ne _ _ hu]
    exact h

lemma dictSet_dictSet_self {β : Type} (d : List (String × β)) (k : String)
    (v1 v2 : β) : dictSet (dictSet d k v1) k v2 = dictSet d k v2 := by
  induction d with
  | nil => simp [dictSet]
  | cons kv rest ih =>
    obtain ⟨k', v'⟩ := kv
    by_cases h : k' = k
    · simp [dictSet, h]
    · simp [dictSet, h, ih]

lemma isSome_dictGet_buildTeamsAux (l : List String) (i : Nat)
    (d : List (String × TeamData)) (u : String)
    (h : u ∈ l ∨ (dictGet d u).isSome) :
    (dictGet (buildTeamsAux i l d) u).isSome := by
  induction l generalizing i d with
  | nil =>
    rcases h with h | h
    · exact absurd h (List.not_mem_nil u)
    · exact h
  | cons a rest ih =>
    show (dictGet (buildTeamsAux (i + 1) rest _) u).isSome
    apply ih
    rcases h with h | h
    · rcases List.mem_cons.mp h with h | h
      · subst h
        right
        rw [dictGet_dictSet_self]
        rfl
      · left
        exact h
    · right
      exact isSome_dictGet_dictSet _ _ _ _ h

lemma isSome_dictGet_buildTeams (order : List String) (u : String) (h : u ∈ order) :
    (dictGet (buildTeams order) u).isSome :=
  isSome_dictGet_buildTeamsAux order 0 [] u (Or.inl h)

lemma mem_setAdd {l : List String} {k a : String} :
    a ∈ setAdd l k ↔ a ∈ l ∨ a = k := by
  unfold setAdd
  split
  · constructor
    · exact Or.inl
    · rintro (h | h)
      · exact h
      · subst h
        assumption
  · simp [List.mem_append]

lemma setAdd_of_not_mem {l : List String} {k : String} (h : k ∉ l) :
    setAdd l k = l ++ [k] := by
  unfold setAdd
  rw [if_neg h]

lemma nodup_setAdd {l : List String} (k : String) (h : l.Nodup) :
    (setAdd l k).Nodup := by
  unfold setAdd
  split
  · exact h
  · rw [List.nodup_append]
    refine ⟨h, List.nodup_singleton k, ?_⟩
    intro a ha hk
    rw [List.mem_singleton] at hk
    subst hk
    exact absurd ha (by assumption)

lemma create_snake_order_succ (base : List String) (r : Nat) :
    create_snake_order base (r + 1) =
      create_snake_order base r ++ (if r % 2 = 0 then base else base.reverse) := by
  unfold create_snake_order
  rw [List.range_succ, List.foldl_append]
  rfl

lemma create_snake_order_length (base : List String) (rounds : Nat) :
    (create_snake_order base rounds).length = base.length * rounds := by
  induction rounds with
  | zero => rfl
  | succ r ih =>
    rw [create_snake_order_succ, List.length_append, ih]
    split <;> simp [Nat.mul_succ]

lemma create_snake_order_round (base : List String) (rounds : Nat) :
    ∀ j, j < rounds →
      ((create_snake_order base rounds).drop (j * base.length)).take base.length =
        if j % 2 = 0 then base else base.reverse := by
  induction rounds with
  | zero => exact fun j hj => absurd hj (Nat.not_lt_zero j)
  | succ r ih =>
    intro j hj
    rw [create_snake_order_succ]
    rcases Nat.lt_succ_iff_lt_or_eq.mp hj with h | h
    · have hmul : j * base.length + base.length ≤ base.length * r := by
        have h1 : (j + 1) * base.length ≤ r * base.length :=
          Nat.mul_le_mul_right _ h
        rw [Nat.succ_mul] at h1
        rw [Nat.mul_comm base.length r]
        exact h1
      rw [List.drop_append_of_le_length
            (by rw [create_snake_order_length]; omega),
          List.take_append_of_le_length
            (by rw [List.length_drop, create_snake_order_length]; omega)]
      exact ih j h
    · subst h
      have hlen : j * base.length = (create_snake_order base j).length := by
        rw [create_snake_order_length, Nat.mul_comm]
      rw [hlen, List.drop_left]
      split
      · exact List.take_length base
      · rw [← List.length_reverse base]
        exact List.take_length base.reverse

lemma mem_create_snake_order {base : List String} {rounds : Nat} {u : String}
    (h : u ∈ create_snake_order base rounds) : u ∈ base := by
  induction rounds with
  | zero => exact absurd h (List.not_mem_nil u)
  | succ r ih =>
    rw [create_snake_order_succ, List.mem_append] at h
    rcases h with h | h
    · exact ih h
    · revert h
      split
      · exact id
      · exact List.mem_reverse.mp

/-- C3: the snake order of a base order of length n over r rounds has length
n times r; its round j block is the base order for even j and the reversed
base order for odd j; base order A, B, C over 3 rounds yields the Scenario A
sequence. -/
theorem snake_order_spec (base : List String) (rounds : Nat) :
    (create_snake_order base rounds).length = base.length * rounds ∧
    (∀ j, j < rounds →
      ((create_snake_order base rounds).drop (j * base.length)).take base.length =
        if j % 2 = 0 then base else base.reverse) ∧
    create_snake_order ["A", "B", "C"] 3 =
      ["A", "B", "C", "C", "B", "A", "A", "B", "C"] :=
  ⟨create_snake_order_length base rounds, create_snake_order_round base rounds,
    by decide⟩

/-- Witness for `snake_order_spec` at base order A, B and round index 1 of 2. -/
theorem snake_order_spec_witness :
    1 < 2 ∧ ((create_snake_order ["A", "B"] 2).drop (1 * 2)).take 2 = ["B", "A"] := by
  refine ⟨by decide, ?_⟩
  have h := (snake_order_spec ["A", "B"] 2).2.1 1 (by decide)
  simpa using h

/-- C7 counterexample: in the state reached by starting a two-participant
draft and then ending it, `is_active` is false but `get_current_user` still
returns participant A rather than none. -/
theorem get_current_user_inactive_cex :
    exInactive.is_active = false ∧ get_current_user exInactive = some "A" :=
  ⟨rfl, rfl⟩

/-- C7 amended: `get_current_user` never consults `is_active`; it returns
entry `current_pick` of the full turn order when that index is in range and
none otherwise. -/
theorem get_current_user_spec (s : DraftState) (b : Bool) :
    get_current_user { s with is_active := b } = s.draft_order.get? s.current_pick := by
  show (if s.current_pick < s.draft_order.length then
    s.draft_order.get? s.current_pick else none) = s.draft_order.get? s.current_pick
  split
  · rfl
  · rw [eq_comm, List.get?_eq_none]
    omega

/-- C4 counterexample: in the inactive (ended, not complete) state,
`add_pick` does not fail; it records a pick for participant A and advances
`current_pick` from 0 to 1 instead of returning a draft-not-active error. -/
theorem add_pick_inactive_cex :
    exInactive.is_active = false ∧ exInactive.current_pick = 0 ∧
    (add_pick exInactive "Tom Brady" "BUC" "QB").map
      (fun r => (r.1, r.2.current_pick)) = some ((some "A", none), 1) :=
  ⟨rfl, rfl, rfl⟩

/-- C4 amended: `add_pick` never consults (or changes) `is_active`, so a
commit on an inactive draft is processed by the complete and duplicate
checks alone; the draft-not-active guard lives in the reaction handler,
which ignores every event while `is_active` is false. -/
theorem add_pick_ignores_is_active (s : DraftState) (b : Bool) (n t p : String)
    (catalog : String → List Player) (ev : ReactionEvent) (fresh : Nat) :
    add_pick { s with is_active := b } n t p =
      (add_pick s n t p).map (fun r => (r.1, { r.2 with is_active := b })) ∧
    (s.is_active = false → on_reaction_add catalog ev fresh s = s) := by
  constructor
  · unfold add_pick
    by_cases h1 : s.draft_order.length ≤ s.current_pick
    · rw [if_pos h1, if_pos h1]
      rfl
    · rw [if_neg h1, if_neg h1]
      dsimp only
      by_cases h2 : playerKey n t ∈ s.drafted_players
      · rw [if_pos h2, if_pos h2]
        rfl
      · rw [if_neg h2, if_neg h2]
        cases s.draft_order.get? s.current_pick with
        | none => rfl
        | some uid =>
          dsimp only
          cases dictGet s.teams uid with
          | none => rfl
          | some team => rfl
  · intro h
    unfold on_reaction_add
    by_cases hb : ev.isBot
    · rw [if_pos hb]
    · rw [if_neg hb, if_pos h]

/-- Witness for `add_pick_ignores_is_active` at the inactive state. -/
theorem add_pick_ignores_is_active_witness :
    exInactive.is_active = false ∧
    on_reaction_add emptyCatalog ⟨"A", false, 1, "🏈"⟩ 2 exInactive = exInactive :=
  ⟨rfl,
    (add_pick_ignores_is_active exInactive false "X" "Y" "QB" emptyCatalog
      ⟨"A", false, 1, "🏈"⟩ 2).2 rfl⟩

/-- C5 counterexample: in the completed two-participant draft whose
exclusion set holds the key of Tom Brady/BUC, committing that identity
again fails with the draft-complete error, not the duplicate error. -/
theorem duplicate_after_complete_cex :
    playerKey "tom brady" "buc" ∈ scenComplete.drafted_players ∧
    add_pick scenComplete "tom brady" "buc" "QB" =
      some ((none, some "Draft is complete!"), scenComplete) ∧
    add_pick scenComplete "tom brady" "buc" "QB" ≠
      some ((none, some ("tom brady" ++ " (" ++ "buc" ++ ") has already been drafted!")),
        scenComplete) :=
  ⟨by decide, by decide, by decide⟩

/-- C5 amended: when the draft is not complete and the submitted identity
key is already excluded, `add_pick` fails with the duplicate error and
leaves the state unchanged (the completeness check precedes the duplicate
check); Scenario B holds as stated, with `current_pick` staying at 1. -/
theorem add_pick_duplicate_spec (s : DraftState) (n t p : String)
    (hlt : s.current_pick < s.draft_order.length)
    (hdup : playerKey n t ∈ s.drafted_players) :
    add_pick s n t p =
      some ((none, some (n ++ " (" ++ t ++ ") has already been drafted!")), s) ∧
    scenB1.current_pick = 1 ∧
    add_pick scenB1 "tom brady" "buc" "QB" =
      some ((none, some ("tom brady" ++ " (" ++ "buc" ++ ") has already been drafted!")),
        scenB1) := by
  refine ⟨?_, rfl, by decide⟩
  unfold add_pick
  rw [if_neg (Nat.not_le.mpr hlt)]
  dsimp only
  rw [if_pos hdup]

/-- Witness for `add_pick_duplicate_spec` at the Scenario B state. -/
theorem add_pick_duplicate_spec_witness :
    scenB1.current_pick < scenB1.draft_order.length ∧
    playerKey "tom brady" "buc" ∈ scenB1.drafted_players ∧
    add_pick scenB1 "tom brady" "buc" "QB" =
      some ((none, some ("tom brady" ++ " (" ++ "buc" ++ ") has already been drafted!")),
        scenB1) :=
  ⟨by decide, by decide,
    (add_pick_duplicate_spec scenB1 "tom brady" "buc" "QB" (by decide) (by decide)).1⟩

lemma add_pick_current_pick_le {s : DraftState} {n t p : String} (r : Option String × Option String)
    (s' : DraftState) (h : add_pick s n t p = some (r, s')) :
    s'.draft_order = s.draft_order ∧
    (s.current_pick ≤ s.draft_order.length → s'.current_pick ≤ s.draft_order.length) := by
  unfold add_pick at h
  split at h
  · simp only [Option.some.injEq, Prod.mk.injEq] at h
    obtain ⟨-, rfl⟩ := h
    exact ⟨rfl, fun hc => hc⟩
  · dsimp only at h
    split at h
    · simp only [Option.some.injEq, Prod.mk.injEq] at h
      obtain ⟨-, rfl⟩ := h
      exact ⟨rfl, fun hc => hc⟩
    · split at h
      · simp at h
      · split at h
        · simp at h
        · simp only [Option.some.injEq, Prod.mk.injEq] at h
          obtain ⟨-, rfl⟩ := h
          refine ⟨rfl, fun _ => ?_⟩
          show s.current_pick + 1 ≤ s.draft_order.length
          omega

lemma commitMany_cons (s : DraftState) (x : String × String × String)
    (rest : List (String × String × String)) :
    commitMany s (x :: rest) = commitMany (applyOp s (.commit x.1 x.2.1 x.2.2)) rest :=
  rfl

lemma applyOp_commit_le (s : DraftState) (n t p : String)
    (h : s.current_pick ≤ s.draft_order.length) :
    (applyOp s (.commit n t p)).current_pick ≤
      (applyOp s (.commit n t p)).draft_order.length := by
  show (match add_pick s n t p with
      | some (_, s') => s'
      | none => s).current_pick ≤
    (match add_pick s n t p with
      | some (_, s') => s'
      | none => s).draft_order.length
  cases hap : add_pick s n t p with
  | none => exact h
  | some rs =>
    obtain ⟨r, s'⟩ := rs
    obtain ⟨hdo, hle⟩ := add_pick_current_pick_le r s' hap
    dsimp only
    rw [hdo]
    exact hle h

lemma commitMany_le (l : List (String × String × String)) :
    ∀ s : DraftState, s.current_pick ≤ s.draft_order.length →
      (commitMany s l).current_pick ≤ (commitMany s l).draft_order.length := by
  induction l with
  | nil => exact fun s h => h
  | cons x rest ih =>
    intro s h
    rw [commitMany_cons]
    exact ih _ (applyOp_commit_le s x.1 x.2.1 x.2.2 h)

/-- C6: with `current_pick` at or past the turn order length, `add_pick`
fails with the draft-complete error and changes nothing; and from any state
with `current_pick` at most the turn order length, no sequence of commits
pushes it past that length. -/
theorem add_pick_complete_spec (s : DraftState) (n t p : String)
    (l : List (String × String × String)) :
    (s.draft_order.length ≤ s.current_pick →
      add_pick s n t p = some ((none, some "Draft is complete!"), s)) ∧
    (s.current_pick ≤ s.draft_order.length →
      (commitMany s l).current_pick ≤ (commitMany s l).draft_order.length) := by
  constructor
  · intro hc
    unfold add_pick
    rw [if_pos hc]
  · exact commitMany_le l s

/-- Witness for `add_pick_complete_spec`: the completed Scenario C draft
rejects another commit, and a commit sequence from the Scenario B state
keeps the pick index in range. -/
theorem add_pick_complete_spec_witness :
    (scenComplete.draft_order.length ≤ scenComplete.current_pick ∧
      add_pick scenComplete "Aaron Rodgers" "NYJ" "QB" =
        some ((none, some "Draft is complete!"), scenComplete)) ∧
    (scenB1.current_pick ≤ scenB1.draft_order.length ∧
      (commitMany scenB1 [("Josh Allen", "BUF", "QB")]).current_pick ≤
        (commitMany scenB1 [("Josh Allen", "BUF", "QB")]).draft_order.length) :=
  ⟨⟨by decide,
      (add_pick_complete_spec scenComplete "Aaron Rodgers" "NYJ" "QB" []).1 (by decide)⟩,
    ⟨by decide,
      (add_pick_complete_spec scenB1 "x" "y" "z" [("Josh Allen", "BUF", "QB")]).2
        (by decide)⟩⟩

/-- C9: a choice event whose originating message id differs from the
current draft board id (including after the board has been superseded)
leaves the entire state unchanged. -/
theorem stale_event_ignored (catalog : String → List Player) (ev : ReactionEvent)
    (fresh : Nat) (s : DraftState)
    (h : s.current_draft_message ≠ some ev.messageId) :
    on_reaction_add catalog ev fresh s = s := by
  unfold on_reaction_add
  by_cases hb : ev.isBot
  · rw [if_pos hb]
  · rw [if_neg hb]
    by_cases ha : s.is_active = false
    · rw [if_pos ha]
    · rw [if_neg ha, if_pos h]

/-- Witness for `stale_event_ignored` at the active Scenario B state. -/
theorem stale_event_ignored_witness :
    scenB1.current_draft_message ≠ some 7 ∧
    on_reaction_add emptyCatalog ⟨"A", false, 7, "1️⃣"⟩ 8 scenB1 = scenB1 :=
  ⟨by decide,
    stale_event_ignored emptyCatalog ⟨"A", false, 7, "1️⃣"⟩ 8 scenB1 (by decide)⟩

lemma foldl_setAdd_of_nodup :
    ∀ (l acc : List String), l.Nodup → (∀ a ∈ l, a ∉ acc) →
      l.foldl setAdd acc = acc ++ l := by
  intro l
  induction l with
  | nil =>
    intro acc _ _
    simp
  | cons a rest ih =>
    intro acc hn hd
    rw [List.foldl_cons, setAdd_of_not_mem (hd a (List.mem_cons_self a rest)),
      ih (acc ++ [a]) (List.nodup_cons.mp hn).2 ?_]
    · simp
    · intro b hb hmem
      rw [List.mem_append, List.mem_singleton] at hmem
      rcases hmem with hacc | hba
      · exact hd b (List.mem_cons_of_mem a hb) hacc
      · exact (List.nodup_cons.mp hn).1 (hba ▸ hb)

lemma setOfList_eq_self {l : List String} (h : l.Nodup) : setOfList l = l := by
  unfold setOfList
  rw [foldl_setAdd_of_nodup l [] h (fun a _ => List.not_mem_nil a)]
  simp

/-- C8: writing the state out with `save_data` and reading the record back
with `load_data` reproduces `current_pick`, `all_picks` (same order, same
content) and the exclusion set exactly; the duplicate-freeness hypothesis
is the representation invariant of the list that stands for the Python set
`drafted_players`. -/
theorem save_load_round_trip (s t : DraftState) (h : s.drafted_players.Nodup) :
    (load_data (save_data s) t).current_pick = s.current_pick ∧
    (load_data (save_data s) t).all_picks = s.all_picks ∧
    (load_data (save_data s) t).drafted_players = s.drafted_players :=
  ⟨rfl, rfl, setOfList_eq_self h⟩

/-- Witness for `save_load_round_trip` at the Scenario B state. -/
theorem save_load_round_trip_witness :
    scenB1.drafted_players.Nodup ∧
    (load_data (save_data scenB1) initState).current_pick = scenB1.current_pick ∧
    (load_data (save_data scenB1) initState).all_picks = scenB1.all_picks ∧
    (load_data (save_data scenB1) initState).drafted_players = scenB1.drafted_players :=
  ⟨by decide, save_load_round_trip scenB1 initState (by decide)⟩

/-- C10: `undo_last_pick` returns false (and changes nothing) exactly when
`all_picks` is empty; otherwise, whenever the participant of the last pick has a
`teams` entry (true of every state the engine produces), it returns true,
removes the last element of `all_picks` and decrements `current_pick` while
leaving `is_active`, `base_draft_order`, `draft_order` and `num_rounds`
untouched; its behavior does not depend on `is_active`, in particular it
still works right after `end_draft`. -/
theorem undo_last_pick_spec (s : DraftState) (b : Bool) :
    (s.all_picks = [] → undo_last_pick s = some (false, s)) ∧
    (∀ last_pick, s.all_picks.getLast? = some last_pick →
      (dictGet s.teams last_pick.user_id).isSome →
      (undo_last_pick s).map (fun r =>
        (r.1, r.2.all_picks, r.2.current_pick, r.2.is_active,
          r.2.base_draft_order, r.2.draft_order, r.2.num_rounds)) =
        some (true, s.all_picks.dropLast, s.current_pick - 1, s.is_active,
          s.base_draft_order, s.draft_order, s.num_rounds)) ∧
    undo_last_pick { s with is_active := b } =
      (undo_last_pick s).map (fun r => (r.1, { r.2 with is_active := b })) ∧
    undo_last_pick (end_draft s) =
      (undo_last_pick s).map (fun r =>
        (r.1, end_draft r.2)) := by
  refine ⟨?_, ?_, ?_, ?_⟩
  · intro h
    unfold undo_last_pick
    rw [h]
    rfl
  · intro last_pick hl hteam
    unfold undo_last_pick
    rw [hl]
    dsimp only
    cases hm : dictGet s.teams last_pick.user_id with
    | none =>
      rw [hm] at hteam
      exact absurd hteam (by simp)
    | some team => rfl
  · unfold undo_last_pick
    dsimp only
    cases s.all_picks.getLast? with
    | none => rfl
    | some last_pick =>
      dsimp only
      cases dictGet s.teams last_pick.user_id with
      | none => rfl
      | some team => rfl
  · unfold undo_last_pick end_draft
    dsimp only
    cases s.all_picks.getLast? with
    | none => rfl
    | some last_pick =>
      dsimp only
      cases dictGet s.teams last_pick.user_id with
      | none => rfl
      | some team => rfl

/-- Witness for `undo_last_pick_spec` at the Scenario B state. -/
theorem undo_last_pick_spec_witness :
    scenB1.all_picks.getLast? = some ⟨"A", "Tom Brady", "BUC", "QB", 1, 1⟩ ∧
    (dictGet scenB1.teams "A").isSome ∧
    (undo_last_pick scenB1).map (fun r =>
      (r.1, r.2.all_picks, r.2.current_pick, r.2.is_active,
        r.2.base_draft_order, r.2.draft_order, r.2.num_rounds)) =
      some (true, scenB1.all_picks.dropLast, scenB1.current_pick - 1,
        scenB1.is_active, scenB1.base_draft_order, scenB1.draft_order,
        scenB1.num_rounds) :=
  ⟨by decide, by decide,
    (undo_last_pick_spec scenB1 true).2.1 ⟨"A", "Tom Brady", "BUC", "QB", 1, 1⟩
      (by decide) (by decide)⟩

/-- C2: a successful `add_pick` followed immediately by `undo_last_pick`
returns true and restores `current_pick`, `all_picks`, the exclusion set and
the team entry of the picking participant to exactly their pre-commit values.
The roster hypothesis (no roster entry of the picking participant already
carries the next pick number) is part of the data-model invariant: in every
state the engine produces, roster pick numbers never exceed the number of
recorded picks. -/
theorem commit_undo_inverse (s : DraftState) (n t p uid : String) (s' : DraftState)
    (hcommit : add_pick s n t p = some ((some uid, none), s'))
    (hroster : ∀ q ∈ rosterPlayers s uid, q.pick_number ≠ s.all_picks.length + 1) :
    (undo_last_pick s').map (fun r =>
      (r.1, r.2.current_pick, r.2.all_picks, r.2.drafted_players,
        dictGet r.2.teams uid)) =
      some (true, s.current_pick, s.all_picks, s.drafted_players,
        dictGet s.teams uid) := by
  by_cases hdup : playerKey n t ∈ s.drafted_players
  · unfold add_pick at hcommit
    split at hcommit
    · simp at hcommit
    · dsimp only at hcommit
      rw [if_pos hdup] at hcommit
      simp at hcommit
  · unfold add_pick at hcommit
    split at hcommit
    · simp at hcommit
    · dsimp only at hcommit
      rw [if_neg hdup] at hcommit
      split at hcommit
      · simp at hcommit
      · rename_i user_id hget
        split at hcommit
        · simp at hcommit
        · rename_i team hteam
          simp only [Option.some.injEq, Prod.mk.injEq] at hcommit
          obtain ⟨⟨huid, -⟩, rfl⟩ := hcommit
          obtain rfl : user_id = uid := huid
          unfold undo_last_pick
          dsimp only
          rw [List.getLast?_concat]
          dsimp only
          rw [dictGet_dictSet_self]
          dsimp only
          have hfilter :
              List.filter (fun q => q.pick_number != s.all_picks.length + 1)
                (team.players ++
                  [{ player_name := n, player_team := t, position := p,
                     pick_number := s.all_picks.length + 1,
                     round := get_current_round s }]) = team.players := by
            rw [List.filter_append]
            have h1 : List.filter (fun q => q.pick_number != s.all_picks.length + 1)
                team.players = team.players := by
              rw [List.filter_eq_self]
              intro q hq
              rw [bne_iff_ne]
              apply hroster
              unfold rosterPlayers
              rw [hteam]
              exact hq
            rw [h1]
            simp
          rw [hfilter, dictSet_dictSet_self, List.dropLast_concat]
          simp only [pickKey]
          have herase : (setAdd s.drafted_players (playerKey n t)).erase (playerKey n t) =
              s.drafted_players := by
            rw [setAdd_of_not_mem hdup, List.erase_append_right _ hdup,
              List.erase_cons_head, List.append_nil]
          rw [herase]
          simp only [Option.map_some']
          rw [dictGet_dictSet_self, hteam, Nat.add_sub_cancel]

/-- Witness for `commit_undo_inverse`: committing Tom Brady/BUC on the
fresh two-participant draft and undoing restores the starting state. -/
theorem commit_undo_inverse_witness :
    (add_pick scenB0 "Tom Brady" "BUC" "QB" = some ((some "A", none), scenB1) ∧
      (∀ q ∈ rosterPlayers scenB0 "A",
        q.pick_number ≠ scenB0.all_picks.length + 1)) ∧
    (undo_last_pick scenB1).map (fun r =>
      (r.1, r.2.current_pick, r.2.all_picks, r.2.drafted_players,
        dictGet r.2.teams "A")) =
      some (true, scenB0.current_pick, scenB0.all_picks, scenB0.drafted_players,
        dictGet scenB0.teams "A") :=
  ⟨⟨by decide, by decide⟩,
    commit_undo_inverse scenB0 "Tom Brady" "BUC" "QB" "A" scenB1
      (by decide) (by decide)⟩

lemma add_pick_cases (s : DraftState) (n t p : String)
    (r : Option String × Option String) (s' : DraftState)
    (h : add_pick s n t p = some (r, s')) :
    s' = s ∨
    (playerKey n t ∉ s.drafted_players ∧
      ∃ user_id team, s.draft_order.get? s.current_pick = some user_id ∧
        dictGet s.teams user_id = some team ∧
        s' = { s with
          teams := dictSet s.teams user_id
            { team with players := team.players ++
                [{ player_name := n, player_team := t, position := p,
                   pick_number := s.all_picks.length + 1,
                   round := get_current_round s }] }
          all_picks := s.all_picks ++
            [{ user_id := user_id, player_name := n, player_team := t,
               position := p, pick_number := s.all_picks.length + 1,
               round := get_current_round s }]
          drafted_players := setAdd s.drafted_players (playerKey n t)
          current_pick := s.current_pick + 1 }) := by
  by_cases hdup : playerKey n t ∈ s.drafted_players
  · unfold add_pick at h
    split at h
    · simp only [Option.some.injEq, Prod.mk.injEq] at h
      exact Or.inl h.2.symm
    · dsimp only at h
      rw [if_pos hdup] at h
      simp only [Option.some.injEq, Prod.mk.injEq] at h
      exact Or.inl h.2.symm
  · unfold add_pick at h
    split at h
    · simp only [Option.some.injEq, Prod.mk.injEq] at h
      exact Or.inl h.2.symm
    · dsimp only at h
      rw [if_neg hdup] at h
      split at h
      · simp at h
      · rename_i user_id hget
        split at h
        · simp at h
        · rename_i team hteam
          simp only [Option.some.injEq, Prod.mk.injEq] at h
          exact Or.inr ⟨hdup, user_id, team, hget, hteam, h.2.symm⟩

lemma undo_last_pick_cases (s : DraftState) (b : Bool) (s' : DraftState)
    (h : undo_last_pick s = some (b, s')) :
    (b = false ∧ s' = s ∧ s.all_picks = []) ∨
    (b = true ∧ ∃ last_pick team, s.all_picks.getLast? = some last_pick ∧
      dictGet s.teams last_pick.user_id = some team ∧
      s' = { s with
        all_picks := s.all_picks.dropLast
        teams := dictSet s.teams last_pick.user_id
          { team with players := team.players.filter (fun q => q.pick_number != last_pick.pick_number) }
        drafted_players := s.drafted_players.erase (pickKey last_pick)
        current_pick := s.current_pick - 1 }) := by
  unfold undo_last_pick at h
  split at h
  · rename_i hnone
    simp only [Option.some.injEq, Prod.mk.injEq] at h
    exact Or.inl ⟨h.1.symm, h.2.symm, List.getLast?_eq_none_iff.mp hnone⟩
  · rename_i last_pick hlast
    split at h
    · simp at h
    · rename_i team hteam
      simp only [Option.some.injEq, Prod.mk.injEq] at h
      exact Or.inr ⟨h.1.symm, last_pick, team, hlast, hteam, h.2.symm⟩

lemma draftInv_initState : DraftInv initState := by
  constructor <;> simp [initState]

lemma draftInv_start (s : DraftState) (order : List String) (rounds : Nat)
    (channel : Option Nat) : DraftInv (start_draft s order rounds channel) := by
  constructor
  · intro k
    simp [start_draft]
  · simp [start_draft]
  · simp [start_draft]
  · intro u hu
    simp only [start_draft] at hu ⊢
    exact isSome_dictGet_buildTeams order u (mem_create_snake_order hu)
  · intro q hq
    simp [start_draft] at hq

lemma draftInv_add_pick (s : DraftState) (n t p : String)
    (r : Option String × Option String) (s' : DraftState)
    (h : add_pick s n t p = some (r, s')) (hs : DraftInv s) : DraftInv s' := by
  rcases add_pick_cases s n t p r s' h with rfl | ⟨hdup, user_id, team, hget, hteam, rfl⟩
  · exact hs
  · have hnotin : playerKey n t ∉ s.all_picks.map pickKey :=
      fun hmem => hdup ((hs.mem_iff _).mpr hmem)
    constructor
    · intro k
      show k ∈ setAdd s.drafted_players (playerKey n t) ↔ _
      rw [mem_setAdd, List.map_append, List.mem_append, hs.mem_iff k]
      simp [pickKey, playerKey]
    · show ((s.all_picks ++ _).map pickKey).Nodup
      rw [List.map_append, List.nodup_append]
      refine ⟨hs.nodup_keys, by simp, ?_⟩
      intro a ha hb
      have hab : a = playerKey n t := by simpa [pickKey, playerKey] using hb
      exact hnotin (hab ▸ ha)
    · exact nodup_setAdd _ hs.nodup_drafted
    · intro u hu
      exact isSome_dictGet_dictSet _ _ _ _ (hs.teams_order u hu)
    · intro q hq
      rw [List.mem_append] at hq
      rcases hq with hq | hq
      · exact isSome_dictGet_dictSet _ _ _ _ (hs.teams_picks q hq)
      · have hq' := List.mem_singleton.mp hq
        subst hq'
        show (dictGet (dictSet s.teams user_id _) user_id).isSome
        rw [dictGet_dictSet_self]
        rfl

lemma draftInv_undo (s : DraftState) (b : Bool) (s' : DraftState)
    (h : undo_last_pick s = some (b, s')) (hs : DraftInv s) : DraftInv s' := by
  rcases undo_last_pick_cases s b s' h with ⟨-, rfl, -⟩ |
    ⟨-, last_pick, team, hlast, hteam, rfl⟩
  · exact hs
  · have hne : s.all_picks ≠ [] := by
      intro he
      rw [he] at hlast
      simp at hlast
    have hlg : s.all_picks.getLast hne = last_pick := by
      have heq := List.getLast?_eq_getLast s.all_picks hne
      rw [heq] at hlast
      exact Option.some.inj hlast
    have hsplit : s.all_picks.dropLast ++ [last_pick] = s.all_picks := by
      rw [← hlg]
      exact List.dropLast_append_getLast hne
    have hkeys : s.all_picks.map pickKey =
        s.all_picks.dropLast.map pickKey ++ [pickKey last_pick] := by
      conv_lhs => rw [← hsplit]
      rw [List.map_append]
      rfl
    have hnodup := hs.nodup_keys
    rw [hkeys, List.nodup_append] at hnodup
    obtain ⟨h1, -, hdisj⟩ := hnodup
    have keynotin : pickKey last_pick ∉ s.all_picks.dropLast.map pickKey :=
      fun hmem => hdisj hmem (List.mem_singleton.mpr rfl)
    constructor
    · intro k
      show k ∈ s.drafted_players.erase (pickKey last_pick) ↔ _
      rw [List.Nodup.mem_erase_iff hs.nodup_drafted, hs.mem_iff k]
      constructor
      · rintro ⟨hne2, hmem⟩
        rw [hkeys, List.mem_append, List.mem_singleton] at hmem
        rcases hmem with hm | hm
        · exact hm
        · exact absurd hm hne2
      · intro hmem
        refine ⟨fun he => keynotin (he ▸ hmem), ?_⟩
        rw [hkeys, List.mem_append]
        exact Or.inl hmem
    · exact h1
    · exact List.Nodup.erase _ hs.nodup_drafted
    · intro u hu
      exact isSome_dictGet_dictSet _ _ _ _ (hs.teams_order u hu)
    · intro q hq
      have hq' : q ∈ s.all_picks := (List.dropLast_sublist s.all_picks).subset hq
      exact isSome_dictGet_dictSet _ _ _ _ (hs.teams_picks q hq')

lemma draftInv_applyOp (s : DraftState) (op : DraftOp) (hs : DraftInv s) :
    DraftInv (applyOp s op) := by
  cases op with
  | start order rounds channel => exact draftInv_start s order rounds channel
  | commit n t p =>
    show DraftInv (match add_pick s n t p with
      | some (_, s') => s'
      | none => s)
    cases h : add_pick s n t p with
    | none => exact hs
    | some rs =>
      obtain ⟨r, s'⟩ := rs
      exact draftInv_add_pick s n t p r s' h hs
  | undo =>
    show DraftInv (match undo_last_pick s with
      | some (_, s') => s'
      | none => s)
    cases h : undo_last_pick s with
    | none => exact hs
    | some rs =>
      obtain ⟨b, s'⟩ := rs
      exact draftInv_undo s b s' h hs

lemma draftInv_applyOps (ops : List DraftOp) :
    ∀ s, DraftInv s → DraftInv (applyOps ops s) := by
  induction ops with
  | nil => exact fun s hs => hs
  | cons op rest ih =>
    intro s hs
    exact ih _ (draftInv_applyOp s op hs)

/-- C1: after any sequence of start, commit and undo operations applied to
the fresh manager state, the exclusion set `drafted_players` holds exactly
the identity keys (lower-cased name and team pairs) of the picks currently
in `all_picks`. -/
theorem exclusion_set_matches_all_picks (ops : List DraftOp) (k : String) :
    k ∈ (applyOps ops initState).drafted_players ↔
      k ∈ (applyOps ops initState).all_picks.map pickKey :=
  (draftInv_applyOps ops initState draftInv_initState).mem_iff k
